import Mathlib

/-!
# Verification of the terraform-provider-smtp send-mail core

A shallow embedding of the `smtp` Go package (resource handlers
`sendMailResource.Create` / `Update` / `Read` / `Delete`, the helpers
`uniqueAttrValue` and `asStringList`, and the provider `client`
configuration), together with proofs of the specified properties of the
recipient normalizer, message builder, transport session, and identity
function.

Machine integers are modelled as `Nat` with explicit reduction mod `2^32`
(resp. `2^64`) where the Go code relies on fixed-width arithmetic (the MD5
digest).  The SMTP connection is modelled by a record of response
functions (`ConnBehavior`): each protocol call the code makes is recorded
as a `Step` in a trace, and the connection decides whether that call
succeeds, mirroring a test-double transport.
-/

namespace SmtpProvider

/-- Model of a `terraform-plugin-framework` `attr.Value` holding a string
element of the `to`/`cc`/`bcc` lists.  `render` is the result of its
`String()` method; Go map-key equality of such values coincides with
equality of the rendered string, which `DecidableEq` on this structure
mirrors. -/
structure AttrValue where
  render : String
deriving DecidableEq, Repr

/-- Tail-recursive worker for `uniqueAttrValue`: `occurred` models the Go
`map[attr.Value]bool` of already-seen values, `result` the accumulated
output slice. -/
def uniqueAttrValueAux (occurred result : List AttrValue) :
    List AttrValue → List AttrValue
  | [] => result
  | e :: rest =>
    if e ∈ occurred then
      uniqueAttrValueAux occurred result rest
    else
      uniqueAttrValueAux (e :: occurred) (result ++ [e]) rest

/-- Embedding of `uniqueAttrValue` (src/unnamed/part_000, lines 321-336):
iterate over `arr`, appending each element to the result the first time it
is seen. -/
def uniqueAttrValue (arr : List AttrValue) : List AttrValue :=
  uniqueAttrValueAux [] [] arr

/-- Reference dedup: keep the elements of the list not in `seen`, first
occurrence only, in order.  `uniqueAttrValueAux` computes `result ++ this`. -/
def dedupFirst (seen : List AttrValue) : List AttrValue → List AttrValue
  | [] => []
  | a :: l =>
    if a ∈ seen then dedupFirst seen l
    else a :: dedupFirst (a :: seen) l

/-! ## Data model -/

/-- Embedding of `sendMailModel` (src/unnamed/part_000, lines 38-47).
String-valued attributes are modelled by the result of `ValueString()`
(`null` reads as `""`); the list attributes keep their `attr.Value`
elements.  `ID` is computed, hence optional. -/
structure SendMailModel where
  ID : Option String
  From : String
  To : List AttrValue
  Cc : List AttrValue
  Bcc : List AttrValue
  Subject : String
  Body : String
  RenderHtml : Bool
deriving DecidableEq, Repr

/-- Model of the `smtp.PlainAuth` value built by the provider `Configure`
(src/unnamed/part_001, line 231). -/
structure PlainAuth where
  identity : String
  username : String
  password : String
  host : String
deriving DecidableEq, Repr

/-- Embedding of the provider `client` struct (src/unnamed/part_001,
lines 32-36); a `nil` `smtp.Auth` interface is `none`. -/
structure Client where
  auth : Option PlainAuth
  host : String
  username : String
  port : String
deriving DecidableEq, Repr

/-- Test-double SMTP connection: decides whether each protocol call the
resource handlers make succeeds. -/
structure ConnBehavior where
  dialOk : Bool
  startTLSOk : Bool
  authOk : Option PlainAuth → Bool
  mailOk : String → Bool
  rcptOk : String → Bool
  dataOk : Bool
  writeOk : Bool
  closeOk : Bool

/-- One attempted protocol call, with its argument and whether the
connection accepted it. -/
inductive Step where
  | dial (hostPort : String) (ok : Bool)
  | startTLS (ok : Bool)
  | auth (a : Option PlainAuth) (ok : Bool)
  | mail (sender : String) (ok : Bool)
  | rcpt (addr : String) (ok : Bool)
  | data (ok : Bool)
  | write (msg : String) (ok : Bool)
  | close (ok : Bool)
deriving DecidableEq, Repr

/-- Outcome of one resource operation: the ordered protocol trace, the
summary of the first `AddError` diagnostic (if any), and the state written
by `resp.State.Set` (if reached). -/
structure OpResult where
  steps : List Step
  error : Option String
  state : Option SendMailModel
deriving DecidableEq, Repr

def errConnecting : String := "Error connecting to SMTP server:"
def errTlsUpgrade : String := "Error upgrading connection to TLS:"
def errAuthenticating : String := "Error authenticating with SMTP server:"
def errSender : String := "Error setting sender address:"
def errRecipient : String := "Error setting recipient address:"
def errMessage : String := "Error setting email message:"
def errSending : String := "Error sending email:"

/-! ## Message builder -/

/-- Embedding of `asStringList` (src/unnamed/part_000, lines 339-345):
render each `attr.Value` via its `String()` method. -/
def asStringList (arr : List AttrValue) : List String :=
  arr.map AttrValue.render

/-- The MIME block inserted when `render_html` is true (src/unnamed/
part_000, line 162). -/
def htmlMime : String :=
  "MIME-version: 1.0;\nContent-Type: text/html; charset=\"UTF-8\";\n\n"

/-- The `mime` local of `Create`/`Update` (lines 160-163 / 260-263). -/
def mimeOf (plan : SendMailModel) : String :=
  if plan.RenderHtml then htmlMime else ""

/-- The `msg` byte buffer of `Create`/`Update` (lines 169-174 / 269-274),
as a string; `strings.Join(xs, ", ")` is `String.intercalate ", " xs`. -/
def msgString (plan : SendMailModel) : String :=
  "To: " ++ String.intercalate ", " (asStringList plan.To) ++ "\r\n" ++
  "Cc: " ++ String.intercalate ", " (asStringList plan.Cc) ++ "\r\n" ++
  "Subject: " ++ plan.Subject ++ "\r\n" ++
  mimeOf plan ++
  "\r\n" ++
  plan.Body ++ "\r\n"

/-- The spec's `headerBlock`: the To, Cc and Subject lines only. -/
def headerBlock (plan : SendMailModel) : String :=
  "To: " ++ String.intercalate ", " (asStringList plan.To) ++ "\r\n" ++
  "Cc: " ++ String.intercalate ", " (asStringList plan.Cc) ++ "\r\n" ++
  "Subject: " ++ plan.Subject ++ "\r\n"

/-- The `from` local after the empty-string fallback (lines 155-158 /
255-258): explicit `from` if non-empty, else the configured username. -/
def effectiveFrom (client : Client) (plan : SendMailModel) : String :=
  if plan.From = "" then client.username else plan.From

/-- The `receivers` local (lines 166-168 / 266-268): deduplicated
concatenation of the to, cc and bcc elements. -/
def receiversOf (plan : SendMailModel) : List AttrValue :=
  uniqueAttrValue (plan.To ++ plan.Cc ++ plan.Bcc)

/-! ## Identity function: MD5 (RFC 1321), as used by `crypto/md5` -/

/-- Reduction to a 32-bit word. -/
def u32 (n : Nat) : Nat := n % 4294967296

/-- Reduction to a 64-bit word. -/
def u64 (n : Nat) : Nat := n % 18446744073709551616

/-- 32-bit left rotation. -/
def rotl32 (x s : Nat) : Nat := u32 ((x <<< s) ||| (x >>> (32 - s)))

/-- 32-bit complement. -/
def compl32 (x : Nat) : Nat := x ^^^ 4294967295

/-- MD5 sine-derived constant table. -/
def kTable : List Nat :=
  [0xd76aa478, 0xe8c7b756, 0x242070db, 0xc1bdceee,
   0xf57c0faf, 0x4787c62a, 0xa8304613, 0xfd469501,
   0x698098d8, 0x8b44f7af, 0xffff5bb1, 0x895cd7be,
   0x6b901122, 0xfd987193, 0xa679438e, 0x49b40821,
   0xf61e2562, 0xc040b340, 0x265e5a51, 0xe9b6c7aa,
   0xd62f105d, 0x02441453, 0xd8a1e681, 0xe7d3fbc8,
   0x21e1cde6, 0xc33707d6, 0xf4d50d87, 0x455a14ed,
   0xa9e3e905, 0xfcefa3f8, 0x676f02d9, 0x8d2a4c8a,
   0xfffa3942, 0x8771f681, 0x6d9d6122, 0xfde5380c,
   0xa4beea44, 0x4bdecfa9, 0xf6bb4b60, 0xbebfbc70,
   0x289b7ec6, 0xeaa127fa, 0xd4ef3085, 0x04881d05,
   0xd9d4d039, 0xe6db99e5, 0x1fa27cf8, 0xc4ac5665,
   0xf4292244, 0x432aff97, 0xab9423a7, 0xfc93a039,
   0x655b59c3, 0x8f0ccc92, 0xffeff47d, 0x85845dd1,
   0x6fa87e4f, 0xfe2ce6e0, 0xa3014314, 0x4e0811a1,
   0xf7537e82, 0xbd3af235, 0x2ad7d2bb, 0xeb86d391]

/-- MD5 per-round shift amounts. -/
def sTable : List Nat :=
  [7, 12, 17, 22, 7, 12, 17, 22, 7, 12, 17, 22, 7, 12, 17, 22,
   5, 9, 14, 20, 5, 9, 14, 20, 5, 9, 14, 20, 5, 9, 14, 20,
   4, 11, 16, 23, 4, 11, 16, 23, 4, 11, 16, 23, 4, 11, 16, 23,
   6, 10, 15, 21, 6, 10, 15, 21, 6, 10, 15, 21, 6, 10, 15, 21]

/-- MD5 round mixing function for round `i`. -/
def md5F (i b c d : Nat) : Nat :=
  if i < 16 then (b &&& c) ||| (compl32 b &&& d)
  else if i < 32 then (d &&& b) ||| (compl32 d &&& c)
  else if i < 48 then b ^^^ c ^^^ d
  else c ^^^ (b ||| compl32 d)

/-- MD5 message-word index for round `i`. -/
def md5G (i : Nat) : Nat :=
  if i < 16 then i
  else if i < 32 then (5 * i + 1) % 16
  else if i < 48 then (3 * i + 5) % 16
  else (7 * i) % 16

/-- `k` bytes of `n`, little-endian. -/
def toLEBytes (n k : Nat) : List Nat :=
  (List.range k).map fun i => n >>> (8 * i) % 256

/-- The 32-bit message word `g` of a 64-byte block, little-endian. -/
def leWord (block : List Nat) (g : Nat) : Nat :=
  block.getD (4 * g) 0 + 256 * block.getD (4 * g + 1) 0 +
    65536 * block.getD (4 * g + 2) 0 + 16777216 * block.getD (4 * g + 3) 0

structure Md5State where
  a : Nat
  b : Nat
  c : Nat
  d : Nat

def md5Init : Md5State := ⟨0x67452301, 0xefcdab89, 0x98badcfe, 0x10325476⟩

/-- One MD5 round `i` on state `(a, b, c, d)`. -/
def md5Round (block : List Nat) (st : Md5State) (i : Nat) : Md5State :=
  let f := u32 (md5F i st.b st.c st.d + st.a + kTable.getD i 0 +
    leWord block (md5G i))
  ⟨st.d, u32 (st.b + rotl32 f (sTable.getD i 0)), st.b, st.c⟩

/-- Process one 64-byte block. -/
def md5Block (st : Md5State) (block : List Nat) : Md5State :=
  let r := (List.range 64).foldl (md5Round block) st
  ⟨u32 (st.a + r.a), u32 (st.b + r.b), u32 (st.c + r.c), u32 (st.d + r.d)⟩

/-- MD5 padding: `0x80`, zeros to 56 mod 64, then the bit length as a
64-bit little-endian quantity. -/
def mdPad (msg : List Nat) : List Nat :=
  let len := msg.length
  let zeros := (120 - (len + 1) % 64) % 64
  msg ++ [128] ++ List.replicate zeros 0 ++ toLEBytes (u64 (8 * len)) 8

/-- Split into 64-byte blocks. -/
def chunks64 (l : List Nat) : List (List Nat) :=
  if l = [] then []
  else l.take 64 :: chunks64 (l.drop 64)
termination_by l.length
decreasing_by
  simp only [List.length_drop]
  have : 0 < l.length := List.length_pos.mpr (by assumption)
  omega

/-- The 16-byte MD5 digest of a byte sequence, as `crypto/md5.Sum`. -/
def md5Sum (msg : List Nat) : List Nat :=
  let fin := (chunks64 (mdPad msg)).foldl md5Block md5Init
  toLEBytes fin.a 4 ++ toLEBytes fin.b 4 ++ toLEBytes fin.c 4 ++ toLEBytes fin.d 4

/-- UTF-8 encoding of one character (Go strings are UTF-8 byte slices). -/
def utf8EncodeChar (c : Char) : List Nat :=
  let n := c.toNat
  if n < 128 then [n]
  else if n < 2048 then [192 + n / 64, 128 + n % 64]
  else if n < 65536 then [224 + n / 4096, 128 + n / 64 % 64, 128 + n % 64]
  else [240 + n / 262144, 128 + n / 4096 % 64, 128 + n / 64 % 64, 128 + n % 64]

/-- The bytes of `[]byte(s)` for a Go string. -/
def utf8Bytes (s : String) : List Nat :=
  (s.data.map utf8EncodeChar).flatten

/-- One lowercase hexadecimal digit. -/
def hexDigitChar (n : Nat) : Char :=
  if n < 10 then Char.ofNat (48 + n) else Char.ofNat (87 + n)

/-- The two lowercase hex digits of a byte, high nibble first, as
`fmt.Sprintf` verb `x` renders each byte. -/
def byteHexChars (b : Nat) : List Char :=
  [hexDigitChar (b / 16 % 16), hexDigitChar (b % 16)]

/-- Lowercase-hex rendering of a byte sequence. -/
def toHexString (bytes : List Nat) : String :=
  ⟨(bytes.map byteHexChars).flatten⟩

/-- The persisted identifier (lines 206 / 306): lowercase hex of the MD5
digest of the composed message bytes. -/
def resourceId (plan : SendMailModel) : String :=
  toHexString (md5Sum (utf8Bytes (msgString plan)))

/-! ## Transport session -/

/-- The `for _, addr := range receivers` RCPT loop (lines 182-188 /
282-293): each recipient is attempted in order via `conn.Rcpt(addr.String())`;
the first failure records the recipient diagnostic and returns. -/
def rcptLoop (conn : ConnBehavior) : List AttrValue → List Step × Option String
  | [] => ([], none)
  | addr :: rest =>
    if conn.rcptOk addr.render then
      let r := rcptLoop conn rest
      (Step.rcpt addr.render true :: r.1, r.2)
    else
      ([Step.rcpt addr.render false], some errRecipient)

/-- The part of `Create` (lines 154-213) that is textually identical in
`Update` (lines 253-314): resolve the sender, build the message, then
MAIL / RCPT / DATA / write / close, computing the id and writing state
only when every step succeeded.  `pre` is the trace of the connection
phase. -/
def envelopePhase (client : Client) (conn : ConnBehavior)
    (plan : SendMailModel) (pre : List Step) : OpResult :=
  let sender := effectiveFrom client plan
  let receivers := receiversOf plan
  let msg := msgString plan
  if conn.mailOk sender = false then
    { steps := pre ++ [.mail sender false], error := some errSender,
      state := none }
  else
    let r := rcptLoop conn receivers
    match r.2 with
    | some e =>
      { steps := pre ++ [.mail sender true] ++ r.1, error := some e,
        state := none }
    | none =>
      if conn.dataOk = false then
        { steps := pre ++ [.mail sender true] ++ r.1 ++ [.data false],
          error := some errMessage, state := none }
      else if conn.writeOk = false then
        { steps := pre ++ [.mail sender true] ++ r.1 ++
            [.data true, .write msg false],
          error := some errMessage, state := none }
      else if conn.closeOk = false then
        { steps := pre ++ [.mail sender true] ++ r.1 ++
            [.data true, .write msg true, .close false],
          error := some errSending, state := none }
      else
        { steps := pre ++ [.mail sender true] ++ r.1 ++
            [.data true, .write msg true, .close true],
          error := none,
          state := some { plan with ID := some (resourceId plan) } }

/-- Embedding of `sendMailResource.Create` (lines 119-214): dial, then —
only when `r.client.auth != nil` — StartTLS and Auth, then the envelope
phase. -/
def createOp (client : Client) (conn : ConnBehavior)
    (plan : SendMailModel) : OpResult :=
  let hostPort := client.host ++ ":" ++ client.port
  if conn.dialOk = false then
    { steps := [.dial hostPort false], error := some errConnecting,
      state := none }
  else if client.auth.isSome then
    if conn.startTLSOk = false then
      { steps := [.dial hostPort true, .startTLS false],
        error := some errTlsUpgrade, state := none }
    else if conn.authOk client.auth = false then
      { steps := [.dial hostPort true, .startTLS true,
          .auth client.auth false],
        error := some errAuthenticating, state := none }
    else
      envelopePhase client conn plan
        [.dial hostPort true, .startTLS true, .auth client.auth true]
  else
    envelopePhase client conn plan [.dial hostPort true]

/-- Embedding of `sendMailResource.Update` (lines 221-315): dial, then
StartTLS and Auth **unconditionally** (the nil-auth guards of `Create`
are absent: with `r.client.auth == nil`, Go would call
`conn.Auth(nil)`, a method call on a nil `smtp.Auth` interface), then
the same envelope phase as `Create`. -/
def updateOp (client : Client) (conn : ConnBehavior)
    (plan : SendMailModel) : OpResult :=
  let hostPort := client.host ++ ":" ++ client.port
  if conn.dialOk = false then
    { steps := [.dial hostPort false], error := some errConnecting,
      state := none }
  else if conn.startTLSOk = false then
    { steps := [.dial hostPort true, .startTLS false],
      error := some errTlsUpgrade, state := none }
  else if conn.authOk client.auth = false then
    { steps := [.dial hostPort true, .startTLS true,
        .auth client.auth false],
      error := some errAuthenticating, state := none }
  else
    envelopePhase client conn plan
      [.dial hostPort true, .startTLS true, .auth client.auth true]

/-- Embedding of `sendMailResource.Read` (lines 217-218): the body is
empty, so no protocol step is performed and no error or state recorded. -/
def readOp (_client : Client) (_conn : ConnBehavior) : OpResult :=
  { steps := [], error := none, state := none }

/-- Embedding of `sendMailResource.Delete` (lines 318-319): the body is
empty, so no protocol step is performed and no error or state recorded. -/
def deleteOp (_client : Client) (_conn : ConnBehavior) : OpResult :=
  { steps := [], error := none, state := none }

/-- A connection that accepts every protocol call. -/
def allOkConn : ConnBehavior :=
  { dialOk := true, startTLSOk := true, authOk := fun _ => true,
    mailOk := fun _ => true, rcptOk := fun _ => true, dataOk := true,
    writeOk := true, closeOk := true }

/-! ## Observation helpers and concrete instances -/

/-- The lowercase hexadecimal alphabet. -/
def lowerHexDigits : List Char := "0123456789abcdef".data

/-- The sender argument of a MAIL FROM step, if the step is one. -/
def mailSender : Step → Option String
  | .mail s _ => some s
  | _ => none

/-- Whether a step is a successful RCPT command. -/
def isSuccessRcpt : Step → Bool
  | .rcpt _ ok => ok
  | _ => false

/-- Whether a step belongs to the DATA phase (opening DATA, writing the
message, or closing the data writer). -/
def isDataPhase : Step → Bool
  | .data _ => true
  | .write _ _ => true
  | .close _ => true
  | _ => false

/-- Whether a step is a STARTTLS or authentication attempt. -/
def isTlsOrAuth : Step → Bool
  | .startTLS _ => true
  | .auth _ _ => true
  | _ => false

/-- The addresses of the RCPT steps of a trace, in order. -/
def rcptAddrs (steps : List Step) : List String :=
  steps.filterMap fun s => match s with
    | .rcpt a _ => some a
    | _ => none

/-- The spec's example request: to=["a@x"], cc=[], subject "Hi",
body "Hello", plain text. -/
def examplePlan : SendMailModel :=
  { ID := none, From := "", To := [⟨"a@x"⟩], Cc := [], Bcc := [],
    Subject := "Hi", Body := "Hello", RenderHtml := false }

/-- A client configured with credentials (the README's first example). -/
def exampleClientAuth : Client :=
  { auth := some ⟨"", "test", "test123", "smtp.example.com"⟩,
    host := "smtp.example.com", username := "test", port := "587" }

/-- A client configured with `authentication = false` (the README's
second example): the `smtp.Auth` interface is nil. -/
def exampleClientNoAuth : Client :=
  { auth := none, host := "smtp.example.com", username := "", port := "25" }

/-- A request with three distinct recipients. -/
def plan3 : SendMailModel :=
  { ID := none, From := "f@x", To := [⟨"a@x"⟩, ⟨"b@x"⟩, ⟨"c@x"⟩], Cc := [],
    Bcc := [], Subject := "S", Body := "B", RenderHtml := false }

/-- A connection that accepts everything except RCPT TO for `b@x`. -/
def failSecondConn : ConnBehavior :=
  { allOkConn with rcptOk := fun s => !(s == "b@x") }

/-! ## Theorems -/

theorem uniqueAttrValueAux_eq (occurred result : List AttrValue)
    (l : List AttrValue) :
    uniqueAttrValueAux occurred result l = result ++ dedupFirst occurred l := by
  induction l generalizing occurred result with
  | nil => simp [uniqueAttrValueAux, dedupFirst]
  | cons a l ih =>
    by_cases h : a ∈ occurred
    · simp [uniqueAttrValueAux, dedupFirst, h, ih]
    · simp [uniqueAttrValueAux, dedupFirst, h, ih]

theorem uniqueAttrValue_eq_dedupFirst (l : List AttrValue) :
    uniqueAttrValue l = dedupFirst [] l := by
  simp [uniqueAttrValue, uniqueAttrValueAux_eq]

theorem mem_dedupFirst {x : AttrValue} (seen l : List AttrValue) :
    x ∈ dedupFirst seen l ↔ x ∈ l ∧ x ∉ seen := by
  induction l generalizing seen with
  | nil => simp [dedupFirst]
  | cons a l ih =>
    by_cases h : a ∈ seen
    · simp only [dedupFirst, if_pos h, ih, List.mem_cons]
      constructor
      · rintro ⟨hx, hns⟩; exact ⟨Or.inr hx, hns⟩
      · rintro ⟨hx | hx, hns⟩
        · exact absurd (hx ▸ h) hns
        · exact ⟨hx, hns⟩
    · simp only [dedupFirst, if_neg h, List.mem_cons, ih]
      constructor
      · rintro (rfl | ⟨hx, hns⟩)
        · exact ⟨Or.inl rfl, h⟩
        · exact ⟨Or.inr hx, fun hc => hns (Or.inr hc)⟩
      · rintro ⟨rfl | hx, hns⟩
        · exact Or.inl rfl
        · by_cases hxa : x = a
          · exact Or.inl hxa
          · exact Or.inr ⟨hx, fun hc => hc.elim hxa hns⟩

theorem nodup_dedupFirst (seen l : List AttrValue) :
    (dedupFirst seen l).Nodup := by
  induction l generalizing seen with
  | nil => simp [dedupFirst]
  | cons a l ih =>
    by_cases h : a ∈ seen
    · simpa [dedupFirst, h] using ih seen
    · simp only [dedupFirst, if_neg h, List.nodup_cons]
      refine ⟨fun hc => ?_, ih (a :: seen)⟩
      exact ((mem_dedupFirst _ _).mp hc).2 (List.mem_cons_self a seen)

theorem pairwise_indexOf_dedupFirst (seen l : List AttrValue) :
    (dedupFirst seen l).Pairwise (fun x y => l.indexOf x < l.indexOf y) := by
  induction l generalizing seen with
  | nil => simp [dedupFirst]
  | cons a l ih =>
    have lift : ∀ s : List AttrValue, a ∈ s →
        (dedupFirst s l).Pairwise
          (fun x y => (a :: l).indexOf x < (a :: l).indexOf y) := by
      intro s hs
      refine (ih s).imp_of_mem ?_
      intro x y hx hy hlt
      have hxa : x ≠ a := fun hxa =>
        ((mem_dedupFirst s l).mp hx).2 (hxa ▸ hs)
      have hya : y ≠ a := fun hya =>
        ((mem_dedupFirst s l).mp hy).2 (hya ▸ hs)
      rw [List.indexOf_cons_ne l hxa.symm, List.indexOf_cons_ne l hya.symm]
      exact Nat.succ_lt_succ hlt
    by_cases h : a ∈ seen
    · simpa [dedupFirst, h] using lift seen h
    · simp only [dedupFirst, if_neg h]
      refine List.Pairwise.cons ?_ (lift (a :: seen) (List.mem_cons_self a seen))
      intro y hy
      have hya : y ≠ a := fun hya =>
        ((mem_dedupFirst _ _).mp hy).2 (hya ▸ List.mem_cons_self a seen)
      rw [List.indexOf_cons_self, List.indexOf_cons_ne l hya.symm]
      exact Nat.succ_pos _

/-- C2: the recipient normalizer `uniqueAttrValue`, applied to the
concatenation `to ++ cc ++ bcc`, returns a sequence that (i) contains an
address iff it occurs in the concatenation, (ii) contains no duplicates
(so every occurring address appears exactly once), (iii) is ordered by
index of first occurrence in the concatenation, and (iv) decides equality
of elements by exact string match on their rendered value. -/
theorem c2_recipient_normalizer (tos ccs bccs : List AttrValue) :
    (∀ x, x ∈ uniqueAttrValue (tos ++ ccs ++ bccs) ↔ x ∈ tos ++ ccs ++ bccs) ∧
    (uniqueAttrValue (tos ++ ccs ++ bccs)).Nodup ∧
    (uniqueAttrValue (tos ++ ccs ++ bccs)).Pairwise
      (fun x y => (tos ++ ccs ++ bccs).indexOf x < (tos ++ ccs ++ bccs).indexOf y) ∧
    (∀ v w : AttrValue, v = w ↔ v.render = w.render) := by
  refine ⟨?_, ?_, ?_, ?_⟩
  · intro x
    rw [uniqueAttrValue_eq_dedupFirst, mem_dedupFirst]
    simp
  · rw [uniqueAttrValue_eq_dedupFirst]; exact nodup_dedupFirst _ _
  · rw [uniqueAttrValue_eq_dedupFirst]; exact pairwise_indexOf_dedupFirst _ _
  · intro v w
    constructor
    · intro h; rw [h]
    · intro h; cases v; cases w; simpa using h

theorem str_append_assoc (a b c : String) : a ++ b ++ c = a ++ (b ++ c) := by
  apply String.ext
  simp

theorem rcptLoop_ok (conn : ConnBehavior) (l : List AttrValue)
    (h : ∀ a ∈ l, conn.rcptOk a.render = true) :
    rcptLoop conn l = (l.map fun a => Step.rcpt a.render true, none) := by
  induction l with
  | nil => simp [rcptLoop]
  | cons a l ih =>
    have ha := h a (List.mem_cons_self a l)
    simp [rcptLoop, ha, ih fun x hx => h x (List.mem_cons_of_mem a hx)]

theorem rcptLoop_fail (conn : ConnBehavior) (pre post : List AttrValue)
    (a : AttrValue) (hpre : ∀ x ∈ pre, conn.rcptOk x.render = true)
    (ha : conn.rcptOk a.render = false) :
    rcptLoop conn (pre ++ a :: post) =
      ((pre.map fun x => Step.rcpt x.render true) ++
        [Step.rcpt a.render false], some errRecipient) := by
  induction pre with
  | nil => simp [rcptLoop, ha]
  | cons x pre ih =>
    have hx := hpre x (List.mem_cons_self x pre)
    simp [rcptLoop, hx, ih fun y hy => hpre y (List.mem_cons_of_mem x hy)]

theorem envelopePhase_allOk (client : Client) (plan : SendMailModel)
    (pre : List Step) :
    envelopePhase client allOkConn plan pre =
      { steps := pre ++ [.mail (effectiveFrom client plan) true] ++
          ((receiversOf plan).map fun a => Step.rcpt a.render true) ++
          [.data true, .write (msgString plan) true, .close true],
        error := none,
        state := some { plan with ID := some (resourceId plan) } } := by
  have h := rcptLoop_ok allOkConn (receiversOf plan) fun a _ => rfl
  simp only [envelopePhase, h]
  simp [allOkConn]

@[simp] theorem allOkConn_dialOk : allOkConn.dialOk = true := rfl
@[simp] theorem allOkConn_startTLSOk : allOkConn.startTLSOk = true := rfl
@[simp] theorem allOkConn_authOk (a : Option PlainAuth) :
    allOkConn.authOk a = true := rfl
@[simp] theorem allOkConn_mailOk (s : String) : allOkConn.mailOk s = true := rfl
@[simp] theorem allOkConn_rcptOk (s : String) : allOkConn.rcptOk s = true := rfl
@[simp] theorem allOkConn_dataOk : allOkConn.dataOk = true := rfl
@[simp] theorem allOkConn_writeOk : allOkConn.writeOk = true := rfl
@[simp] theorem allOkConn_closeOk : allOkConn.closeOk = true := rfl

theorem createOp_allOk (client : Client) (plan : SendMailModel) :
    createOp client allOkConn plan =
      envelopePhase client allOkConn plan
        (if client.auth.isSome then
          [.dial (client.host ++ ":" ++ client.port) true, .startTLS true,
           .auth client.auth true]
         else [.dial (client.host ++ ":" ++ client.port) true]) := by
  unfold createOp
  cases h : client.auth.isSome <;> simp [h]

theorem updateOp_allOk (client : Client) (plan : SendMailModel) :
    updateOp client allOkConn plan =
      envelopePhase client allOkConn plan
        [.dial (client.host ++ ":" ++ client.port) true, .startTLS true,
         .auth client.auth true] := by
  unfold updateOp
  simp

theorem envelopePhase_state (client : Client) (conn : ConnBehavior)
    (plan : SendMailModel) (pre : List Step) :
    (envelopePhase client conn plan pre).state =
      if (envelopePhase client conn plan pre).error = none
      then some { plan with ID := some (resourceId plan) } else none := by
  cases hm : conn.mailOk (effectiveFrom client plan)
  · simp [envelopePhase, hm]
  · cases hr : (rcptLoop conn (receiversOf plan)).2
    · cases hd : conn.dataOk
      · simp [envelopePhase, hm, hr, hd]
      · cases hw : conn.writeOk
        · simp [envelopePhase, hm, hr, hd, hw]
        · cases hc : conn.closeOk
          · simp [envelopePhase, hm, hr, hd, hw, hc]
          · simp [envelopePhase, hm, hr, hd, hw, hc]
    · simp [envelopePhase, hm, hr]

theorem toLEBytes_length (n k : Nat) : (toLEBytes n k).length = k := by
  simp [toLEBytes]

theorem md5Sum_length (msg : List Nat) : (md5Sum msg).length = 16 := by
  simp [md5Sum, toLEBytes]

theorem toHexString_length (bytes : List Nat) :
    (toHexString bytes).length = 2 * bytes.length := by
  show ((bytes.map byteHexChars).flatten).length = 2 * bytes.length
  induction bytes with
  | nil => rfl
  | cons b bs ih =>
    simp only [List.map_cons, List.flatten_cons, List.length_append, ih,
      byteHexChars, List.length_cons, List.length_nil, List.length_cons]
    omega

theorem hexDigitChar_mem : ∀ n < 16, hexDigitChar n ∈ lowerHexDigits := by
  decide

theorem toHexString_chars (bytes : List Nat) :
    ∀ c ∈ (toHexString bytes).data, c ∈ lowerHexDigits := by
  show ∀ c ∈ (bytes.map byteHexChars).flatten, c ∈ lowerHexDigits
  intro c hc
  rw [List.mem_flatten] at hc
  obtain ⟨l, hl, hcl⟩ := hc
  rw [List.mem_map] at hl
  obtain ⟨b, _, rfl⟩ := hl
  simp only [byteHexChars, List.mem_cons, List.not_mem_nil, or_false] at hcl
  rcases hcl with rfl | rfl
  · exact hexDigitChar_mem _ (Nat.mod_lt _ (by norm_num))
  · exact hexDigitChar_mem _ (Nat.mod_lt _ (by norm_num))

/-- C10: on every Create or Update invocation, resource state is written
exactly on the fully successful path: an error at any protocol step
leaves the state unset, and on success the persisted state is the plan
with its id set to the content hash of the composed message. -/
theorem c10_state_only_on_success (client : Client) (conn : ConnBehavior)
    (plan : SendMailModel) :
    ((createOp client conn plan).state =
      if (createOp client conn plan).error = none
      then some { plan with ID := some (resourceId plan) } else none) ∧
    ((updateOp client conn plan).state =
      if (updateOp client conn plan).error = none
      then some { plan with ID := some (resourceId plan) } else none) := by
  constructor
  · cases hd : conn.dialOk
    · simp [createOp, hd]
    · cases ha : client.auth.isSome
      · have h := envelopePhase_state client conn plan
          [.dial (client.host ++ ":" ++ client.port) true]
        simp only [createOp, hd, ha]
        simpa using h
      · cases ht : conn.startTLSOk
        · simp [createOp, hd, ha, ht]
        · cases hau : conn.authOk client.auth
          · simp [createOp, hd, ha, ht, hau]
          · have h := envelopePhase_state client conn plan
              [.dial (client.host ++ ":" ++ client.port) true, .startTLS true,
               .auth client.auth true]
            simp only [createOp, hd, ha, ht, hau]
            simpa using h
  · cases hd : conn.dialOk
    · simp [updateOp, hd]
    · cases ht : conn.startTLSOk
      · simp [updateOp, hd, ht]
      · cases hau : conn.authOk client.auth
        · simp [updateOp, hd, ht, hau]
        · have h := envelopePhase_state client conn plan
            [.dial (client.host ++ ":" ++ client.port) true, .startTLS true,
             .auth client.auth true]
          simp only [updateOp, hd, ht, hau]
          simpa using h

/-- C4: the persisted identifier is the lowercase hexadecimal encoding
(32 hex digits) of the 16-byte (128-bit) MD5 digest of the composed
message bytes; it is a pure function of those bytes, so byte-identical
composed messages give identical identifiers, and under a fully
successful send both Create and Update persist exactly this identifier. -/
theorem c4_identity_function :
    (∀ p q : SendMailModel, msgString p = msgString q →
      resourceId p = resourceId q) ∧
    (∀ p : SendMailModel,
      resourceId p = toHexString (md5Sum (utf8Bytes (msgString p))) ∧
      (md5Sum (utf8Bytes (msgString p))).length = 16 ∧
      (resourceId p).length = 32 ∧
      ∀ c ∈ (resourceId p).data, c ∈ lowerHexDigits) ∧
    (∀ (client : Client) (plan : SendMailModel),
      (createOp client allOkConn plan).state =
        some { plan with ID := some (resourceId plan) } ∧
      (updateOp client allOkConn plan).state =
        some { plan with ID := some (resourceId plan) }) := by
  refine ⟨fun p q h => by rw [resourceId, h]; rfl, fun p => ?_, fun client plan => ?_⟩
  · refine ⟨rfl, md5Sum_length _, ?_, toHexString_chars _⟩
    rw [resourceId, toHexString_length, md5Sum_length]
  · constructor
    · rw [createOp_allOk, envelopePhase_allOk]
    · rw [updateOp_allOk, envelopePhase_allOk]

/-- Witness for C4: instantiating the purity clause at the example
request. -/
theorem c4_identity_function_witness :
    resourceId examplePlan = resourceId examplePlan :=
  c4_identity_function.1 examplePlan examplePlan rfl

/-- C1: the composed message factors as headerBlock + mimeBlock + CRLF +
body + CRLF, where headerBlock is the To line, the Cc line and the
Subject line; on the spec's example request the raw bytes are exactly
`To: a@x\r\nCc: \r\nSubject: Hi\r\n\r\nHello\r\n`. -/
theorem c1_message_composition (plan : SendMailModel) :
    msgString plan =
      headerBlock plan ++ mimeOf plan ++ "\r\n" ++ plan.Body ++ "\r\n" ∧
    msgString examplePlan = "To: a@x\r\nCc: \r\nSubject: Hi\r\n\r\nHello\r\n" := by
  constructor
  · apply String.ext
    simp [msgString, headerBlock]
  · decide

/-- C8: flipping `render_html` changes only the MIME block of the
composed message: with the flag set the inserted block is exactly
`MIME-version: 1.0;` LF `Content-Type: text/html; charset="UTF-8";` LF LF
and with the flag clear it is empty, while the To/Cc/Subject header block
and the body bytes are identical in both cases. -/
theorem c8_html_flag_frame (plan : SendMailModel) :
    msgString { plan with RenderHtml := true } =
      headerBlock plan ++ htmlMime ++ "\r\n" ++ plan.Body ++ "\r\n" ∧
    msgString { plan with RenderHtml := false } =
      headerBlock plan ++ "\r\n" ++ plan.Body ++ "\r\n" ∧
    headerBlock { plan with RenderHtml := true } = headerBlock plan ∧
    headerBlock { plan with RenderHtml := false } = headerBlock plan ∧
    htmlMime =
      "MIME-version: 1.0;\nContent-Type: text/html; charset=\"UTF-8\";\n\n" := by
  refine ⟨?_, ?_, rfl, rfl, rfl⟩
  · apply String.ext
    simp [msgString, headerBlock, mimeOf]
  · apply String.ext
    simp [msgString, headerBlock, mimeOf]

theorem rcptLoop_mailSender (conn : ConnBehavior) (l : List AttrValue) :
    (rcptLoop conn l).1.filterMap mailSender = [] := by
  induction l with
  | nil => rfl
  | cons a l ih =>
    by_cases h : conn.rcptOk a.render <;> simp [rcptLoop, h, ih, mailSender]

theorem envelopePhase_mailSenders (client : Client) (conn : ConnBehavior)
    (plan : SendMailModel) (pre : List Step)
    (hpre : pre.filterMap mailSender = []) :
    (envelopePhase client conn plan pre).steps.filterMap mailSender =
      [effectiveFrom client plan] := by
  cases hm : conn.mailOk (effectiveFrom client plan)
  · simp [envelopePhase, hm, hpre, mailSender]
  · cases hr : (rcptLoop conn (receiversOf plan)).2
    · cases hd : conn.dataOk
      · simp [envelopePhase, hm, hr, hd, hpre, mailSender, rcptLoop_mailSender]
      · cases hw : conn.writeOk
        · simp [envelopePhase, hm, hr, hd, hw, hpre, mailSender,
            rcptLoop_mailSender]
        · cases hc : conn.closeOk <;>
            simp [envelopePhase, hm, hr, hd, hw, hc, hpre, mailSender,
              rcptLoop_mailSender]
    · simp [envelopePhase, hm, hr, hpre, mailSender, rcptLoop_mailSender]

/-- C9: every MAIL FROM command either operation issues carries the
effective sender — the request's `from` when non-empty, the configured
username otherwise — and on an all-accepting connection both operations
do issue exactly that MAIL FROM command. -/
theorem c9_effective_sender (client : Client) (conn : ConnBehavior)
    (plan : SendMailModel) :
    ((createOp client conn plan).steps.filterMap mailSender).all
        (· == effectiveFrom client plan) = true ∧
    ((updateOp client conn plan).steps.filterMap mailSender).all
        (· == effectiveFrom client plan) = true ∧
    Step.mail (effectiveFrom client plan) true ∈
      (createOp client allOkConn plan).steps ∧
    Step.mail (effectiveFrom client plan) true ∈
      (updateOp client allOkConn plan).steps := by
  refine ⟨?_, ?_, ?_, ?_⟩
  · cases hd : conn.dialOk
    · simp [createOp, hd, mailSender]
    · cases ha : client.auth.isSome
      · have h := envelopePhase_mailSenders client conn plan
          [.dial (client.host ++ ":" ++ client.port) true] (by simp [mailSender])
        simp [createOp, hd, ha, h]
      · cases ht : conn.startTLSOk
        · simp [createOp, hd, ha, ht, mailSender]
        · cases hau : conn.authOk client.auth
          · simp [createOp, hd, ha, ht, hau, mailSender]
          · have h := envelopePhase_mailSenders client conn plan
              [.dial (client.host ++ ":" ++ client.port) true, .startTLS true,
               .auth client.auth true] (by simp [mailSender])
            simp [createOp, hd, ha, ht, hau, h]
  · cases hd : conn.dialOk
    · simp [updateOp, hd, mailSender]
    · cases ht : conn.startTLSOk
      · simp [updateOp, hd, ht, mailSender]
      · cases hau : conn.authOk client.auth
        · simp [updateOp, hd, ht, hau, mailSender]
        · have h := envelopePhase_mailSenders client conn plan
            [.dial (client.host ++ ":" ++ client.port) true, .startTLS true,
             .auth client.auth true] (by simp [mailSender])
          simp [updateOp, hd, ht, hau, h]
  · rw [createOp_allOk, envelopePhase_allOk]
    simp
  · rw [updateOp_allOk, envelopePhase_allOk]
    simp

/-- C5: the composed message — in particular its header block — is
independent of the bcc list (bcc addresses are never rendered into a
header line), while every bcc address is among the deduplicated envelope
recipients, and on an all-accepting connection both operations issue an
RCPT TO for it. -/
theorem c5_bcc_blind (client : Client) (plan : SendMailModel)
    (bccs : List AttrValue) :
    headerBlock { plan with Bcc := bccs } = headerBlock plan ∧
    msgString { plan with Bcc := bccs } = msgString plan ∧
    plan.Bcc.all (fun b => decide (b ∈ receiversOf plan)) = true ∧
    plan.Bcc.all (fun b => decide (Step.rcpt b.render true ∈
      (createOp client allOkConn plan).steps)) = true ∧
    plan.Bcc.all (fun b => decide (Step.rcpt b.render true ∈
      (updateOp client allOkConn plan).steps)) = true := by
  have hmem : ∀ b ∈ plan.Bcc, b ∈ receiversOf plan := by
    intro b hb
    rw [receiversOf, uniqueAttrValue_eq_dedupFirst, mem_dedupFirst]
    exact ⟨List.mem_append_right _ hb, List.not_mem_nil b⟩
  refine ⟨rfl, rfl, ?_, ?_, ?_⟩
  · rw [List.all_eq_true]
    intro b hb
    simpa using hmem b hb
  · rw [List.all_eq_true]
    intro b hb
    rw [createOp_allOk, envelopePhase_allOk]
    simp only [decide_eq_true_eq]
    refine List.mem_append_left _ (List.mem_append_right _ ?_)
    exact List.mem_map_of_mem _ (hmem b hb)
  · rw [List.all_eq_true]
    intro b hb
    rw [updateOp_allOk, envelopePhase_allOk]
    simp only [decide_eq_true_eq]
    refine List.mem_append_left _ (List.mem_append_right _ ?_)
    exact List.mem_map_of_mem _ (hmem b hb)

/-- With credentials configured, `Update` performs exactly the same
operation as `Create`: the nil-auth guards are the only textual
difference between the two handlers. -/
theorem createOp_eq_updateOp_of_auth (client : Client) (conn : ConnBehavior)
    (plan : SendMailModel) (h : client.auth.isSome = true) :
    createOp client conn plan = updateOp client conn plan := by
  unfold createOp updateOp
  simp [h]

/-- C3 (code bug): with `authentication = false` the client's
`smtp.Auth` is nil; `Create` then attempts neither STARTTLS nor Auth,
but `Update` unconditionally attempts both — its trace contains a
STARTTLS step and an Auth step carrying no credentials (in Go,
`conn.Auth(nil)` is a method call on a nil interface). -/
theorem c3_update_attempts_tls_and_auth_without_credentials :
    exampleClientNoAuth.auth = none ∧
    Step.startTLS true ∈
      (updateOp exampleClientNoAuth allOkConn examplePlan).steps ∧
    Step.auth none true ∈
      (updateOp exampleClientNoAuth allOkConn examplePlan).steps ∧
    (createOp exampleClientNoAuth allOkConn examplePlan).steps.all
      (fun s => !(isTlsOrAuth s)) = true := by
  decide

/-- C7 (code bug): with no credentials configured, Update's protocol
step sequence differs from Create's (it attempts STARTTLS and Auth,
Create does not), so update is not the same send as create for every
configuration; Read and Delete perform no protocol step. -/
theorem c7_update_differs_from_create_without_credentials :
    (createOp exampleClientNoAuth allOkConn examplePlan).steps ≠
      (updateOp exampleClientNoAuth allOkConn examplePlan).steps ∧
    (readOp exampleClientNoAuth allOkConn).steps = [] ∧
    (readOp exampleClientNoAuth allOkConn).error = none ∧
    (readOp exampleClientNoAuth allOkConn).state = none ∧
    (deleteOp exampleClientNoAuth allOkConn).steps = [] ∧
    (deleteOp exampleClientNoAuth allOkConn).error = none ∧
    (deleteOp exampleClientNoAuth allOkConn).state = none := by
  refine ⟨?_, rfl, rfl, rfl, rfl, rfl, rfl⟩
  decide

theorem rcptAddrs_map_true (l : List AttrValue) :
    rcptAddrs (l.map fun x => Step.rcpt x.render true) =
      l.map AttrValue.render := by
  induction l with
  | nil => rfl
  | cons a l ih => simp [rcptAddrs] at ih ⊢; exact ih

theorem filter_success_map_true (l : List AttrValue) :
    (l.map fun x => Step.rcpt x.render true).filter isSuccessRcpt =
      l.map fun x => Step.rcpt x.render true := by
  induction l with
  | nil => rfl
  | cons a l ih => simp [isSuccessRcpt, ih]

theorem rcptAddrs_nil : rcptAddrs [] = [] := rfl

theorem rcptAddrs_mail_cons (s : String) (o : Bool) (rest : List Step) :
    rcptAddrs (Step.mail s o :: rest) = rcptAddrs rest := rfl

theorem rcptAddrs_rcpt_cons (addr : String) (o : Bool) (rest : List Step) :
    rcptAddrs (Step.rcpt addr o :: rest) = addr :: rcptAddrs rest := rfl

theorem rcptAddrs_append (s t : List Step) :
    rcptAddrs (s ++ t) = rcptAddrs s ++ rcptAddrs t := by
  simp [rcptAddrs]

theorem filter_dataPhase_map_true (l : List AttrValue) :
    (l.map fun x => Step.rcpt x.render true).filter isDataPhase = [] := by
  induction l with
  | nil => rfl
  | cons a l ih => simp [isDataPhase]

theorem envelopePhase_rcpt_fail (client : Client) (conn : ConnBehavior)
    (plan : SendMailModel) (pre0 : List Step) (preR post : List AttrValue)
    (a : AttrValue) (hsplit : receiversOf plan = preR ++ a :: post)
    (hpre : ∀ x ∈ preR, conn.rcptOk x.render = true)
    (ha : conn.rcptOk a.render = false)
    (hmail : conn.mailOk (effectiveFrom client plan) = true) :
    envelopePhase client conn plan pre0 =
      { steps := pre0 ++ [.mail (effectiveFrom client plan) true] ++
          ((preR.map fun x => Step.rcpt x.render true) ++
            [Step.rcpt a.render false]),
        error := some errRecipient, state := none } := by
  have h := rcptLoop_fail conn preR post a hpre ha
  simp only [envelopePhase, hsplit, h, hmail]
  simp

theorem envelopePhase_rcpt_fail_props (client : Client) (conn : ConnBehavior)
    (plan : SendMailModel) (pre0 : List Step) (preR post : List AttrValue)
    (a : AttrValue) (hsplit : receiversOf plan = preR ++ a :: post)
    (hpre : ∀ x ∈ preR, conn.rcptOk x.render = true)
    (ha : conn.rcptOk a.render = false)
    (hmail : conn.mailOk (effectiveFrom client plan) = true)
    (h0a : rcptAddrs pre0 = [])
    (h0s : pre0.filter isSuccessRcpt = [])
    (h0d : pre0.filter isDataPhase = []) :
    (envelopePhase client conn plan pre0).error = some errRecipient ∧
    (envelopePhase client conn plan pre0).state = none ∧
    rcptAddrs (envelopePhase client conn plan pre0).steps =
      preR.map AttrValue.render ++ [a.render] ∧
    ((envelopePhase client conn plan pre0).steps.filter isSuccessRcpt).length =
      preR.length ∧
    (envelopePhase client conn plan pre0).steps.filter isDataPhase = [] := by
  rw [envelopePhase_rcpt_fail client conn plan pre0 preR post a hsplit hpre
    ha hmail]
  refine ⟨rfl, rfl, ?_, ?_, ?_⟩
  · simp [rcptAddrs_append, h0a, rcptAddrs_map_true, rcptAddrs_mail_cons,
      rcptAddrs_rcpt_cons, rcptAddrs_nil]
  · simp [List.filter_append, h0s, isSuccessRcpt, filter_success_map_true]
  · simp [List.filter_append, h0d, isDataPhase, filter_dataPhase_map_true]

/-- C6: whenever the deduplicated recipient sequence splits as
`preR ++ a :: post` with every recipient in `preR` accepted and `a`
rejected, both Create and Update abort with the recipient error: the RCPT
commands issued are exactly `preR ++ [a]` in sequence order, exactly
`preR.length` of them succeeded (one fewer than were attempted), no later
recipient is attempted, no state is written, and no DATA-phase step
(opening DATA, writing, closing) appears in the trace. -/
theorem c6_rcpt_first_failure (client : Client) (conn : ConnBehavior)
    (plan : SendMailModel) (preR post : List AttrValue) (a : AttrValue)
    (hsplit : receiversOf plan = preR ++ a :: post)
    (hpre : ∀ x ∈ preR, conn.rcptOk x.render = true)
    (ha : conn.rcptOk a.render = false)
    (hdial : conn.dialOk = true)
    (htls : conn.startTLSOk = true)
    (hauth : conn.authOk client.auth = true)
    (hmail : conn.mailOk (effectiveFrom client plan) = true) :
    ((createOp client conn plan).error = some errRecipient ∧
     (createOp client conn plan).state = none ∧
     rcptAddrs (createOp client conn plan).steps =
       preR.map AttrValue.render ++ [a.render] ∧
     ((createOp client conn plan).steps.filter isSuccessRcpt).length =
       preR.length ∧
     (createOp client conn plan).steps.filter isDataPhase = []) ∧
    ((updateOp client conn plan).error = some errRecipient ∧
     (updateOp client conn plan).state = none ∧
     rcptAddrs (updateOp client conn plan).steps =
       preR.map AttrValue.render ++ [a.render] ∧
     ((updateOp client conn plan).steps.filter isSuccessRcpt).length =
       preR.length ∧
     (updateOp client conn plan).steps.filter isDataPhase = []) := by
  constructor
  · cases hA : client.auth.isSome
    · have hc : createOp client conn plan =
          envelopePhase client conn plan
            [.dial (client.host ++ ":" ++ client.port) true] := by
        unfold createOp
        simp [hdial, hA]
      rw [hc]
      exact envelopePhase_rcpt_fail_props client conn plan _ preR post a
        hsplit hpre ha hmail rfl rfl rfl
    · have hc : createOp client conn plan =
          envelopePhase client conn plan
            [.dial (client.host ++ ":" ++ client.port) true, .startTLS true,
             .auth client.auth true] := by
        unfold createOp
        simp [hdial, hA, htls, hauth]
      rw [hc]
      exact envelopePhase_rcpt_fail_props client conn plan _ preR post a
        hsplit hpre ha hmail rfl rfl rfl
  · have hu : updateOp client conn plan =
        envelopePhase client conn plan
          [.dial (client.host ++ ":" ++ client.port) true, .startTLS true,
           .auth client.auth true] := by
      unfold updateOp
      simp [hdial, htls, hauth]
    rw [hu]
    exact envelopePhase_rcpt_fail_props client conn plan _ preR post a
      hsplit hpre ha hmail rfl rfl rfl

/-- Witness for C6: three recipients `a@x`, `b@x`, `c@x` against a
connection rejecting RCPT for `b@x` — both operations abort with the
recipient error after exactly one successful RCPT, and no DATA phase. -/
theorem c6_rcpt_first_failure_witness :
    ((createOp exampleClientAuth failSecondConn plan3).error =
        some errRecipient ∧
      (createOp exampleClientAuth failSecondConn plan3).state = none ∧
      rcptAddrs (createOp exampleClientAuth failSecondConn plan3).steps =
        ["a@x", "b@x"] ∧
      ((createOp exampleClientAuth failSecondConn plan3).steps.filter
          isSuccessRcpt).length = 1 ∧
      (createOp exampleClientAuth failSecondConn plan3).steps.filter
        isDataPhase = []) ∧
    ((updateOp exampleClientAuth failSecondConn plan3).error =
        some errRecipient ∧
      (updateOp exampleClientAuth failSecondConn plan3).state = none ∧
      rcptAddrs (updateOp exampleClientAuth failSecondConn plan3).steps =
        ["a@x", "b@x"] ∧
      ((updateOp exampleClientAuth failSecondConn plan3).steps.filter
          isSuccessRcpt).length = 1 ∧
      (updateOp exampleClientAuth failSecondConn plan3).steps.filter
        isDataPhase = []) :=
  c6_rcpt_first_failure exampleClientAuth failSecondConn plan3
    [⟨"a@x"⟩] [⟨"c@x"⟩] ⟨"b@x"⟩ (by decide) (by decide) (by decide)
    rfl rfl rfl rfl

end SmtpProvider

